import Mathlib

/-!
LED register controller (`src/src/leds.c`, `src/inc/leds.h`)

A shallow embedding of the LED abstraction layer.  The module keeps one
file-scope pointer `led_port` to a `uint16_t` register and offers per-LED and
whole-register operations on it.

Modelling choices:

* a pointer to a `uint16_t` is an `Option Nat` (`none` is `NULL`, `some a` is the
  address `a`);
* the memory the pointers refer to is a function from addresses to the value of the
  `uint16_t` cell stored there (a `Nat`; a store truncates modulo `2 ^ 16`);
* C `int` expressions are computed in `Int` (all intermediate values of this module
  fit in 17 bits, so no `int` overflow occurs); every function returns its C `int`
  result together with the state after the call.
-/

namespace Leds

/-! ## Constants of `leds.h` -/

/-- Number of LEDs (`#define LED_COUNT 16`). -/
def LED_COUNT : Nat := 16

/-- Value written to switch every LED off (`#define LED_OFF 0x00`). -/
def LED_OFF : Int := 0x00

/-- Value written to switch every LED on (`#define LED_ON 0xFF`). -/
def LED_ON : Int := 0xFF

/-- Successful operation (`#define LED_SUCCESS 0`). -/
def LED_SUCCESS : Int := 0

/-- Null port (`#define LED_ERROR_NULL_PORT -1`). -/
def LED_ERROR_NULL_PORT : Int := -1

/-- Invalid parameters (`#define LED_ERROR_INVALID_PARAMS -2`). -/
def LED_ERROR_INVALID_PARAMS : Int := -2

/-! ## Machine model -/

/-- Conversion of a C `int` to `uint16_t`: reduction modulo `2 ^ 16`. -/
def toU16 (x : Int) : Nat := (x % 65536).toNat

/-- Memory: the `uint16_t` value held at each address. -/
abbrev Mem := Nat → Nat

/-- Store `v` in the cell at address `p`; every other cell is untouched. -/
def Mem.write (m : Mem) (p : Nat) (v : Nat) : Mem :=
  fun a => if a = p then v else m a

/-- Program state: the file-scope variable `static uint16_t * led_port` and the
memory it may point into. -/
structure State where
  /-- The bound register (`none` is `NULL`). -/
  led_port : Option Nat
  /-- The contents of the `uint16_t` cells. -/
  mem : Mem

/-- State at program start: a static pointer is zero-initialised (`NULL`). -/
def State.start (m : Mem) : State := { led_port := none, mem := m }

/-- Every cell holds a value a `uint16_t` can hold. -/
def State.WellFormed (s : State) : Prop := ∀ a, s.mem a < 65536

/-- The C test `led < 1 || led > LED_COUNT` on a `uint16_t led`. -/
def outOfRange (led : Nat) : Bool := decide (led < 1) || decide (led > LED_COUNT)

/-- The C expression `(1 << (led - 1))`, computed in `int` after promotion of `led`. -/
def ledMask (led : Nat) : Int := (1 : Int) <<< ((led : Int) - 1)

/-! ## Functions of `leds.c` -/

/-- `int leds_init(uint16_t * port)`. -/
def leds_init (s : State) (port : Option Nat) : Int × State :=
  match port with
  | none => (LED_ERROR_NULL_PORT, s)
  | some p => (LED_SUCCESS, { led_port := some p, mem := s.mem.write p (toU16 LED_OFF) })

/-- `void leds_deinit(void)`. -/
def leds_deinit (s : State) : State :=
  match s.led_port with
  | some p => { led_port := none, mem := s.mem.write p (toU16 LED_OFF) }
  | none => s

/-- `int leds_turn_on_single(uint16_t led)`. -/
def leds_turn_on_single (s : State) (led : Nat) : Int × State :=
  match s.led_port with
  | none => (LED_ERROR_INVALID_PARAMS, s)
  | some p =>
    if outOfRange led then (LED_ERROR_INVALID_PARAMS, s)
    else
      let v := toU16 (Int.lor (s.mem p : Int) (ledMask led))
      (LED_SUCCESS, { s with mem := s.mem.write p v })

/-- `int leds_turn_off_single(uint16_t led)`. -/
def leds_turn_off_single (s : State) (led : Nat) : Int × State :=
  match s.led_port with
  | none => (LED_ERROR_INVALID_PARAMS, s)
  | some p =>
    if outOfRange led then (LED_ERROR_INVALID_PARAMS, s)
    else
      let v := toU16 (Int.land (s.mem p : Int) (Int.lnot (ledMask led)))
      (LED_SUCCESS, { s with mem := s.mem.write p v })

/-- `int leds_get_status_single(uint16_t led)`. -/
def leds_get_status_single (s : State) (led : Nat) : Int × State :=
  match s.led_port with
  | none => (LED_ERROR_INVALID_PARAMS, s)
  | some p =>
    if outOfRange led then (LED_ERROR_INVALID_PARAMS, s)
    else (if Int.land (s.mem p : Int) (ledMask led) ≠ 0 then 1 else 0, s)

/-- `int leds_turn_on_all(void)`. -/
def leds_turn_on_all (s : State) : Int × State :=
  match s.led_port with
  | none => (LED_ERROR_NULL_PORT, s)
  | some p => (LED_SUCCESS, { s with mem := s.mem.write p (toU16 LED_ON) })

/-- `int leds_turn_off_all(void)`. -/
def leds_turn_off_all (s : State) : Int × State :=
  match s.led_port with
  | none => (LED_ERROR_NULL_PORT, s)
  | some p => (LED_SUCCESS, { s with mem := s.mem.write p (toU16 LED_OFF) })

/-- `int leds_get_status_all(void)`. -/
def leds_get_status_all (s : State) : Int × State :=
  match s.led_port with
  | none => (LED_ERROR_NULL_PORT, s)
  | some p => ((s.mem p : Int), s)

/-- A state bound to the register at address `p` that holds `v`; every other cell
holds `0`. -/
def boundAt (p v : Nat) : State :=
  { led_port := some p, mem := Mem.write (fun _ => 0) p v }

/-! ## Sequences of calls -/

/-- A call of one of the functions of `leds.c` that take no pointer argument, that is,
every function except `leds_init`. -/
inductive Call where
  /-- The call `leds_turn_on_single(led)`. -/
  | turn_on_single (led : Nat)
  /-- The call `leds_turn_off_single(led)`. -/
  | turn_off_single (led : Nat)
  /-- The call `leds_get_status_single(led)`. -/
  | get_status_single (led : Nat)
  /-- The call `leds_turn_on_all()`. -/
  | turn_on_all
  /-- The call `leds_turn_off_all()`. -/
  | turn_off_all
  /-- The call `leds_get_status_all()`. -/
  | get_status_all
  /-- The call `leds_deinit()`. -/
  | deinit

/-- State after one call (the returned `int` is dropped). -/
def Call.run (s : State) : Call → State
  | Call.turn_on_single led => (leds_turn_on_single s led).2
  | Call.turn_off_single led => (leds_turn_off_single s led).2
  | Call.get_status_single led => (leds_get_status_single s led).2
  | Call.turn_on_all => (leds_turn_on_all s).2
  | Call.turn_off_all => (leds_turn_off_all s).2
  | Call.get_status_all => (leds_get_status_all s).2
  | Call.deinit => leds_deinit s

/-- State after a sequence of calls, executed from left to right. -/
def runCalls (s : State) (cs : List Call) : State := cs.foldl Call.run s

/-! ## Arithmetic of the masks -/

theorem toU16_natCast (n : Nat) : toU16 (n : Int) = n % 65536 := by
  unfold toU16
  omega

theorem toU16_LED_OFF : toU16 LED_OFF = 0 := by decide

theorem toU16_LED_ON : toU16 LED_ON = 255 := by decide

theorem outOfRange_eq_false {led : Nat} (h1 : 1 ≤ led) (h16 : led ≤ 16) :
    outOfRange led = false := by
  simp [outOfRange, LED_COUNT]
  omega

theorem outOfRange_eq_true {led : Nat} (h : led = 0 ∨ 16 < led) : outOfRange led = true := by
  simp [outOfRange, LED_COUNT]
  omega

/-- For a valid LED number the mask is the power of two of the bit position. -/
theorem ledMask_eq {led : Nat} (h1 : 1 ≤ led) : ledMask led = ((2 ^ (led - 1) : Nat) : Int) := by
  obtain ⟨k, rfl⟩ : ∃ k, led = k + 1 := ⟨led - 1, by omega⟩
  have hk : ((k + 1 : Nat) : Int) - 1 = (k : Int) := by omega
  rw [ledMask, hk, Int.one_shiftLeft]
  rfl

/-- Value stored by `*led_port |= (1 << (led - 1))`. -/
theorem onValue_eq (v : Nat) {led : Nat} (h1 : 1 ≤ led) :
    toU16 (Int.lor (v : Int) (ledMask led)) = (v ||| 2 ^ (led - 1)) % 65536 := by
  rw [ledMask_eq h1]
  exact toU16_natCast _

/-- Value stored by `*led_port &= ~(1 << (led - 1))`. -/
theorem offValue_eq (v : Nat) {led : Nat} (h1 : 1 ≤ led) :
    toU16 (Int.land (v : Int) (Int.lnot (ledMask led))) =
      (Nat.ldiff v (2 ^ (led - 1))) % 65536 := by
  rw [ledMask_eq h1]
  exact toU16_natCast _

/-- The test `(*led_port & (1 << (led - 1))) != 0` reads bit `led - 1`. -/
theorem testValue_eq (v : Nat) {led : Nat} (h1 : 1 ≤ led) :
    (Int.land (v : Int) (ledMask led) ≠ 0) ↔ v.testBit (led - 1) = true := by
  rw [ledMask_eq h1]
  show ((v &&& 2 ^ (led - 1) : Nat) : Int) ≠ 0 ↔ _
  rw [Ne, Int.natCast_eq_zero]
  constructor
  · intro h
    by_contra hb
    apply h
    apply Nat.eq_of_testBit_eq
    intro j
    by_cases hj : led - 1 = j
    · subst hj; simp [hb]
    · simp [Nat.testBit_two_pow, hj]
  · intro hb h
    have := congrArg (fun x => Nat.testBit x (led - 1)) h
    simp [hb, Nat.testBit_two_pow] at this

/-! ## The functions on a bound register -/

theorem leds_turn_on_single_bound {s : State} {p led : Nat} (hb : s.led_port = some p)
    (h1 : 1 ≤ led) (h16 : led ≤ 16) :
    leds_turn_on_single s led =
      (LED_SUCCESS, { s with mem := s.mem.write p ((s.mem p ||| 2 ^ (led - 1)) % 65536) }) := by
  simp only [leds_turn_on_single, hb, outOfRange_eq_false h1 h16, onValue_eq _ h1]
  rfl

theorem leds_turn_off_single_bound {s : State} {p led : Nat} (hb : s.led_port = some p)
    (h1 : 1 ≤ led) (h16 : led ≤ 16) :
    leds_turn_off_single s led =
      (LED_SUCCESS,
        { s with mem := s.mem.write p ((Nat.ldiff (s.mem p) (2 ^ (led - 1))) % 65536) }) := by
  simp only [leds_turn_off_single, hb, outOfRange_eq_false h1 h16, offValue_eq _ h1]
  rfl

theorem leds_get_status_single_bound {s : State} {p led : Nat} (hb : s.led_port = some p)
    (h1 : 1 ≤ led) (h16 : led ≤ 16) :
    leds_get_status_single s led = (if (s.mem p).testBit (led - 1) then 1 else 0, s) := by
  simp only [leds_get_status_single, hb, outOfRange_eq_false h1 h16, testValue_eq _ h1]
  rfl

theorem Mem.write_same (m : Mem) (p v : Nat) : m.write p v p = v := by
  simp [Mem.write]

/-- Reading one LED right after a store of `v` to the bound register. -/
theorem leds_get_status_single_write {s : State} {p led : Nat} (v : Nat)
    (hb : s.led_port = some p) (h1 : 1 ≤ led) (h16 : led ≤ 16) :
    (leds_get_status_single { s with mem := s.mem.write p v } led).1 =
      if v.testBit (led - 1) then 1 else 0 := by
  rw [leds_get_status_single_bound (s := { s with mem := s.mem.write p v }) hb h1 h16]
  simp [Mem.write_same]

theorem Mem.write_other (m : Mem) (p v : Nat) {a : Nat} (h : a ≠ p) : m.write p v a = m a := by
  simp [Mem.write, h]

/-- Bits below 16 survive the truncation to `uint16_t`. -/
theorem testBit_mod_u16 (x : Nat) {k : Nat} (hk : k < 16) :
    (x % 65536).testBit k = x.testBit k := by
  have h : (65536 : Nat) = 2 ^ 16 := by norm_num
  rw [h, Nat.testBit_mod_two_pow]
  simp [hk]

/-! ## Whole-register switch-on -/

/-- C1, the code at a concrete bound state: on the register left all-off by `leds_init`,
`leds_turn_on_all` returns `LED_SUCCESS`, but the following `leds_get_status_all` returns
`0x00FF` rather than `0xFFFF`, and `leds_get_status_single` reports LED 9 (and LED 16) off:
only the low 8 of the 16 LEDs are switched on. -/
theorem C1_turn_on_all_lights_only_low_byte :
    (leds_turn_on_all (leds_init (State.start (fun _ => 0)) (some 0)).2).1 = LED_SUCCESS ∧
    (leds_get_status_all
      (leds_turn_on_all (leds_init (State.start (fun _ => 0)) (some 0)).2).2).1 = 0x00FF ∧
    (leds_get_status_all
      (leds_turn_on_all (leds_init (State.start (fun _ => 0)) (some 0)).2).2).1 ≠ 0xFFFF ∧
    (leds_get_status_single
      (leds_turn_on_all (leds_init (State.start (fun _ => 0)) (some 0)).2).2 9).1 = 0 ∧
    (leds_get_status_single
      (leds_turn_on_all (leds_init (State.start (fun _ => 0)) (some 0)).2).2 16).1 = 0 := by
  decide

/-! ## Single-LED writes -/

/-- C2: in every bound state and for every LED number `i` with `1 ≤ i ≤ 16`,
`leds_turn_on_single i` returns `LED_SUCCESS` and `leds_get_status_single i` then returns 1;
`leds_turn_off_single i` returns `LED_SUCCESS` and `leds_get_status_single i` then
returns 0. -/
theorem C2_write_then_read (s : State) (p i : Nat) (hb : s.led_port = some p)
    (h1 : 1 ≤ i) (h16 : i ≤ 16) :
    (leds_turn_on_single s i).1 = LED_SUCCESS ∧
    (leds_get_status_single (leds_turn_on_single s i).2 i).1 = 1 ∧
    (leds_turn_off_single s i).1 = LED_SUCCESS ∧
    (leds_get_status_single (leds_turn_off_single s i).2 i).1 = 0 := by
  have hk : i - 1 < 16 := by omega
  rw [leds_turn_on_single_bound hb h1 h16, leds_turn_off_single_bound hb h1 h16]
  refine ⟨rfl, ?_, rfl, ?_⟩
  · rw [leds_get_status_single_write _ hb h1 h16]
    simp [testBit_mod_u16 _ hk, Nat.testBit_two_pow]
  · rw [leds_get_status_single_write _ hb h1 h16]
    simp [testBit_mod_u16 _ hk, Nat.testBit_ldiff, Nat.testBit_two_pow]

/-- C2 at a concrete input: register `0x00F0` at address 3, LED 16. -/
theorem C2_write_then_read_witness :
    (boundAt 3 0x00F0).led_port = some 3 ∧ 1 ≤ 16 ∧ 16 ≤ 16 ∧
    (leds_turn_on_single (boundAt 3 0x00F0) 16).1 = LED_SUCCESS ∧
    (leds_get_status_single (leds_turn_on_single (boundAt 3 0x00F0) 16).2 16).1 = 1 ∧
    (leds_turn_off_single (boundAt 3 0x00F0) 16).1 = LED_SUCCESS ∧
    (leds_get_status_single (leds_turn_off_single (boundAt 3 0x00F0) 16).2 16).1 = 0 :=
  ⟨rfl, by decide, by decide,
    C2_write_then_read (boundAt 3 0x00F0) 3 16 rfl (by decide) (by decide)⟩

/-- C3 (bit isolation): in every bound state, for LED numbers `i ≠ j` in `[1, 16]`,
`leds_get_status_single j` returns the same value after `leds_turn_on_single i` and after
`leds_turn_off_single i` as before the write; and every register bit `k < 16` other than
bit `i - 1` has the same value after either write. -/
theorem C3_bit_isolation (s : State) (p i j : Nat) (hb : s.led_port = some p)
    (hi1 : 1 ≤ i) (hi16 : i ≤ 16) (hj1 : 1 ≤ j) (hj16 : j ≤ 16) (hij : j ≠ i) :
    (leds_get_status_single (leds_turn_on_single s i).2 j).1 = (leds_get_status_single s j).1 ∧
    (leds_get_status_single (leds_turn_off_single s i).2 j).1 = (leds_get_status_single s j).1 ∧
    (∀ k, k < 16 → k ≠ i - 1 →
      ((leds_turn_on_single s i).2.mem p).testBit k = (s.mem p).testBit k ∧
      ((leds_turn_off_single s i).2.mem p).testBit k = (s.mem p).testBit k) := by
  have hne : i - 1 ≠ j - 1 := by omega
  have hk : j - 1 < 16 := by omega
  rw [leds_turn_on_single_bound hb hi1 hi16, leds_turn_off_single_bound hb hi1 hi16]
  refine ⟨?_, ?_, ?_⟩
  · rw [leds_get_status_single_write _ hb hj1 hj16, leds_get_status_single_bound hb hj1 hj16]
    simp [testBit_mod_u16 _ hk, Nat.testBit_two_pow, hne]
  · rw [leds_get_status_single_write _ hb hj1 hj16, leds_get_status_single_bound hb hj1 hj16]
    simp [testBit_mod_u16 _ hk, Nat.testBit_ldiff, Nat.testBit_two_pow, hne]
  · intro k hk16 hki
    have hki2 : i - 1 ≠ k := fun h => hki h.symm
    simp [Mem.write_same, testBit_mod_u16 _ hk16, Nat.testBit_ldiff, Nat.testBit_two_pow, hki2]

/-- C3 at a concrete input: register `0xA5A5` at address 3, write to LED 1, read LED 16. -/
theorem C3_bit_isolation_witness :
    (boundAt 3 0xA5A5).led_port = some 3 ∧ 16 ≠ 1 ∧
    (leds_get_status_single (leds_turn_on_single (boundAt 3 0xA5A5) 1).2 16).1
      = (leds_get_status_single (boundAt 3 0xA5A5) 16).1 ∧
    (leds_get_status_single (leds_turn_off_single (boundAt 3 0xA5A5) 1).2 16).1
      = (leds_get_status_single (boundAt 3 0xA5A5) 16).1 ∧
    (∀ k, k < 16 → k ≠ 1 - 1 →
      ((leds_turn_on_single (boundAt 3 0xA5A5) 1).2.mem 3).testBit k
        = ((boundAt 3 0xA5A5).mem 3).testBit k ∧
      ((leds_turn_off_single (boundAt 3 0xA5A5) 1).2.mem 3).testBit k
        = ((boundAt 3 0xA5A5).mem 3).testBit k) :=
  ⟨rfl, by decide,
    C3_bit_isolation (boundAt 3 0xA5A5) 3 1 16 rfl (by decide) (by decide) (by decide)
      (by decide) (by decide)⟩

/-! ## Binding -/

/-- C4: for every non-null register address `p`, whatever the register held and whatever
the previous binding was, `leds_init` returns `LED_SUCCESS`, leaves the register at `0x0000`
and makes it the bound register (a following `leds_get_status_all` reads 0 from it). -/
theorem C4_init_clears_and_binds (s : State) (p : Nat) :
    (leds_init s (some p)).1 = LED_SUCCESS ∧
    (leds_init s (some p)).2.led_port = some p ∧
    (leds_init s (some p)).2.mem p = 0x0000 ∧
    (leds_get_status_all (leds_init s (some p)).2).1 = 0x0000 := by
  simp [leds_init, leds_get_status_all, Mem.write_same, toU16_LED_OFF]

/-! ## Rejected calls -/

/-- C5 (range rejection): for an LED number that is 0 or greater than 16, the three per-LED
functions return `LED_ERROR_INVALID_PARAMS`, which is -2, and the state after the call is the
state before it (in every state, hence in every bound state and for every 16-bit number). -/
theorem C5_out_of_range_rejected (s : State) (i : Nat) (h : i = 0 ∨ 16 < i) :
    leds_turn_on_single s i = (LED_ERROR_INVALID_PARAMS, s) ∧
    leds_turn_off_single s i = (LED_ERROR_INVALID_PARAMS, s) ∧
    leds_get_status_single s i = (LED_ERROR_INVALID_PARAMS, s) ∧
    LED_ERROR_INVALID_PARAMS = -2 := by
  have ho := outOfRange_eq_true h
  refine ⟨?_, ?_, ?_, rfl⟩
  · unfold leds_turn_on_single
    cases s.led_port <;> simp [ho]
  · unfold leds_turn_off_single
    cases s.led_port <;> simp [ho]
  · unfold leds_get_status_single
    cases s.led_port <;> simp [ho]

/-- C5 at a concrete input: register `0x0F0F` at address 3, LED number 17. -/
theorem C5_out_of_range_rejected_witness :
    (17 = 0 ∨ 16 < 17) ∧
    leds_turn_on_single (boundAt 3 0x0F0F) 17 = (LED_ERROR_INVALID_PARAMS, boundAt 3 0x0F0F) ∧
    leds_turn_off_single (boundAt 3 0x0F0F) 17 = (LED_ERROR_INVALID_PARAMS, boundAt 3 0x0F0F) ∧
    leds_get_status_single (boundAt 3 0x0F0F) 17
      = (LED_ERROR_INVALID_PARAMS, boundAt 3 0x0F0F) ∧
    LED_ERROR_INVALID_PARAMS = -2 :=
  ⟨by decide, C5_out_of_range_rejected (boundAt 3 0x0F0F) 17 (by decide)⟩

/-- C6: in an unbound state the per-LED functions return `LED_ERROR_INVALID_PARAMS` (-2)
for every LED number and the whole-register functions return `LED_ERROR_NULL_PORT` (-1),
each leaving the state (binding and every register) as it was.  The state at program start
and the state after `leds_deinit` are unbound; and from a state bound to `p`, `leds_deinit`
followed by `leds_turn_on_all` returns `LED_ERROR_NULL_PORT` with the register at `p` still
`0x0000`. -/
theorem C6_unbound_rejects (s : State) (i : Nat) (hu : s.led_port = none) :
    leds_turn_on_single s i = (-2, s) ∧
    leds_turn_off_single s i = (-2, s) ∧
    leds_get_status_single s i = (-2, s) ∧
    leds_turn_on_all s = (-1, s) ∧
    leds_turn_off_all s = (-1, s) ∧
    leds_get_status_all s = (-1, s) ∧
    (∀ m, (State.start m).led_port = none) ∧
    (∀ t, (leds_deinit t).led_port = none) ∧
    (∀ t p, t.led_port = some p →
      (leds_turn_on_all (leds_deinit t)).1 = LED_ERROR_NULL_PORT ∧
      (leds_turn_on_all (leds_deinit t)).2.mem p = 0x0000 ∧
      (leds_turn_on_all (leds_deinit t)).2 = leds_deinit t) := by
  refine ⟨?_, ?_, ?_, ?_, ?_, ?_, fun _ => rfl, ?_, ?_⟩
  · simp [leds_turn_on_single, hu, LED_ERROR_INVALID_PARAMS]
  · simp [leds_turn_off_single, hu, LED_ERROR_INVALID_PARAMS]
  · simp [leds_get_status_single, hu, LED_ERROR_INVALID_PARAMS]
  · simp [leds_turn_on_all, hu, LED_ERROR_NULL_PORT]
  · simp [leds_turn_off_all, hu, LED_ERROR_NULL_PORT]
  · simp [leds_get_status_all, hu, LED_ERROR_NULL_PORT]
  · intro t
    unfold leds_deinit
    cases ht : t.led_port <;> simp [ht]
  · intro t p ht
    simp [leds_deinit, leds_turn_on_all, ht, Mem.write_same, toU16_LED_OFF]

/-- C6 at a concrete input: the unbound start state over an all-zero memory, LED 3. -/
theorem C6_unbound_rejects_witness :
    (State.start (fun _ => 0)).led_port = none ∧
    leds_turn_on_single (State.start (fun _ => 0)) 3 = (-2, State.start (fun _ => 0)) ∧
    leds_turn_off_single (State.start (fun _ => 0)) 3 = (-2, State.start (fun _ => 0)) ∧
    leds_get_status_single (State.start (fun _ => 0)) 3 = (-2, State.start (fun _ => 0)) ∧
    leds_turn_on_all (State.start (fun _ => 0)) = (-1, State.start (fun _ => 0)) ∧
    leds_turn_off_all (State.start (fun _ => 0)) = (-1, State.start (fun _ => 0)) ∧
    leds_get_status_all (State.start (fun _ => 0)) = (-1, State.start (fun _ => 0)) ∧
    (∀ m, (State.start m).led_port = none) ∧
    (∀ t, (leds_deinit t).led_port = none) ∧
    (∀ t p, t.led_port = some p →
      (leds_turn_on_all (leds_deinit t)).1 = LED_ERROR_NULL_PORT ∧
      (leds_turn_on_all (leds_deinit t)).2.mem p = 0x0000 ∧
      (leds_turn_on_all (leds_deinit t)).2 = leds_deinit t) :=
  ⟨rfl, C6_unbound_rejects (State.start (fun _ => 0)) 3 rfl⟩

/-! ## Whole-register switch-off, unbinding, null binding -/

/-- C7: in every bound state `leds_turn_off_all` returns `LED_SUCCESS`, the following
`leds_get_status_all` returns `0x0000`, and `leds_get_status_single i` then returns 0 for
every `i` in `[1, 16]`. -/
theorem C7_turn_off_all (s : State) (p : Nat) (hb : s.led_port = some p) :
    (leds_turn_off_all s).1 = LED_SUCCESS ∧
    (leds_get_status_all (leds_turn_off_all s).2).1 = 0x0000 ∧
    (∀ i, 1 ≤ i → i ≤ 16 → (leds_get_status_single (leds_turn_off_all s).2 i).1 = 0) := by
  have hoff : leds_turn_off_all s = (LED_SUCCESS, { s with mem := s.mem.write p 0 }) := by
    simp [leds_turn_off_all, hb, toU16_LED_OFF]
  rw [hoff]
  refine ⟨rfl, ?_, ?_⟩
  · simp [leds_get_status_all, hb, Mem.write_same]
  · intro i h1 h16
    rw [leds_get_status_single_write _ hb h1 h16]
    simp

/-- C7 at a concrete input: register `0xFFFF` at address 3. -/
theorem C7_turn_off_all_witness :
    (boundAt 3 0xFFFF).led_port = some 3 ∧
    (leds_turn_off_all (boundAt 3 0xFFFF)).1 = LED_SUCCESS ∧
    (leds_get_status_all (leds_turn_off_all (boundAt 3 0xFFFF)).2).1 = 0x0000 ∧
    (∀ i, 1 ≤ i → i ≤ 16 →
      (leds_get_status_single (leds_turn_off_all (boundAt 3 0xFFFF)).2 i).1 = 0) :=
  ⟨rfl, C7_turn_off_all (boundAt 3 0xFFFF) 3 rfl⟩

/-- C8: from a state bound to `p`, `leds_deinit` stores `0x0000` in the register at `p`
(no other cell changes) and leaves the controller unbound; from an unbound state it changes
nothing; and `leds_deinit` twice gives the same state as `leds_deinit` once. -/
theorem C8_deinit (p : Nat) (m : Mem) (s : State) :
    leds_deinit { led_port := some p, mem := m } = { led_port := none, mem := m.write p 0 } ∧
    (leds_deinit { led_port := some p, mem := m }).mem p = 0x0000 ∧
    leds_deinit { led_port := none, mem := m } = { led_port := none, mem := m } ∧
    leds_deinit (leds_deinit s) = leds_deinit s := by
  refine ⟨?_, ?_, rfl, ?_⟩
  · simp [leds_deinit, toU16_LED_OFF]
  · simp [leds_deinit, toU16_LED_OFF, Mem.write_same]
  · unfold leds_deinit
    cases hs : s.led_port <;> simp [hs]

/-- C9: `leds_init` with a null pointer returns `LED_ERROR_NULL_PORT` (-1) and the state
after the call is the state before it: the binding (bound or not) and every register are
unchanged. -/
theorem C9_init_null (s : State) :
    leds_init s none = (LED_ERROR_NULL_PORT, s) ∧
    (leds_init s none).1 = -1 ∧
    (leds_init s none).2.led_port = s.led_port ∧
    (leds_init s none).2.mem = s.mem :=
  ⟨rfl, rfl, rfl, rfl⟩

/-! ## Queries -/

/-- C10: in a state bound to a register holding `v`, `leds_get_status_all` returns exactly
`v` and leaves the state as it was; for every `i` in `[1, 16]`, `leds_get_status_single i`
returns 1 if bit `i - 1` of `v` is set and 0 otherwise, leaves the state as it was, and its
result is 1 exactly when bit `i - 1` of the result of `leds_get_status_all` is set. -/
theorem C10_queries (s : State) (p : Nat) (hb : s.led_port = some p) :
    leds_get_status_all s = ((s.mem p : Int), s) ∧
    (∀ i, 1 ≤ i → i ≤ 16 →
      leds_get_status_single s i = (if (s.mem p).testBit (i - 1) then 1 else 0, s) ∧
      ((leds_get_status_single s i).1 = 1 ↔
        Int.testBit (leds_get_status_all s).1 (i - 1) = true) ∧
      ((leds_get_status_single s i).1 = 0 ↔
        Int.testBit (leds_get_status_all s).1 (i - 1) = false)) := by
  have hall : leds_get_status_all s = ((s.mem p : Int), s) := by
    simp [leds_get_status_all, hb]
  refine ⟨hall, ?_⟩
  intro i h1 h16
  rw [leds_get_status_single_bound hb h1 h16, hall]
  have ht : Int.testBit ((s.mem p : Nat) : Int) (i - 1) = (s.mem p).testBit (i - 1) := rfl
  refine ⟨rfl, ?_, ?_⟩
  · rw [ht]
    cases (s.mem p).testBit (i - 1) <;> simp
  · rw [ht]
    cases (s.mem p).testBit (i - 1) <;> simp

/-- C10 at a concrete input: register `0x8001` at address 3. -/
theorem C10_queries_witness :
    (boundAt 3 0x8001).led_port = some 3 ∧
    leds_get_status_all (boundAt 3 0x8001)
      = ((((boundAt 3 0x8001).mem 3 : Nat) : Int), boundAt 3 0x8001) ∧
    (∀ i, 1 ≤ i → i ≤ 16 →
      leds_get_status_single (boundAt 3 0x8001) i
        = (if ((boundAt 3 0x8001).mem 3).testBit (i - 1) then 1 else 0, boundAt 3 0x8001) ∧
      ((leds_get_status_single (boundAt 3 0x8001) i).1 = 1 ↔
        Int.testBit (leds_get_status_all (boundAt 3 0x8001)).1 (i - 1) = true) ∧
      ((leds_get_status_single (boundAt 3 0x8001) i).1 = 0 ↔
        Int.testBit (leds_get_status_all (boundAt 3 0x8001)).1 (i - 1) = false)) :=
  ⟨rfl, C10_queries (boundAt 3 0x8001) 3 rfl⟩

/-! ## Further facts about stores and register values -/

theorem Mem.write_write (m : Mem) (p v w : Nat) : (m.write p v).write p w = m.write p w := by
  funext a
  simp only [Mem.write]
  split <;> rfl

theorem Mem.write_self (m : Mem) (p : Nat) : m.write p (m p) = m := by
  funext a
  simp only [Mem.write]
  split
  · next h => rw [h]
  · rfl

theorem leds_turn_on_single_mk (p : Nat) (m : Mem) {led : Nat} (h1 : 1 ≤ led) (h16 : led ≤ 16) :
    leds_turn_on_single { led_port := some p, mem := m } led =
      (LED_SUCCESS,
        { led_port := some p, mem := m.write p ((m p ||| 2 ^ (led - 1)) % 65536) }) :=
  leds_turn_on_single_bound (s := { led_port := some p, mem := m }) rfl h1 h16

theorem leds_turn_off_single_mk (p : Nat) (m : Mem) {led : Nat} (h1 : 1 ≤ led)
    (h16 : led ≤ 16) :
    leds_turn_off_single { led_port := some p, mem := m } led =
      (LED_SUCCESS,
        { led_port := some p, mem := m.write p ((Nat.ldiff (m p) (2 ^ (led - 1))) % 65536) }) :=
  leds_turn_off_single_bound (s := { led_port := some p, mem := m }) rfl h1 h16

/-- Bits of the value stored by a switch-on of bit `k`. -/
theorem testBit_onValue (v k j : Nat) :
    ((v ||| 2 ^ k) % 65536).testBit j = (decide (j < 16) && (v.testBit j || decide (k = j))) := by
  have h : (65536 : Nat) = 2 ^ 16 := by norm_num
  rw [h, Nat.testBit_mod_two_pow, Nat.testBit_or, Nat.testBit_two_pow]

/-- Bits of the value stored by a switch-off of bit `k`. -/
theorem testBit_offValue (v k j : Nat) :
    ((Nat.ldiff v (2 ^ k)) % 65536).testBit j =
      (decide (j < 16) && (v.testBit j && !decide (k = j))) := by
  have h : (65536 : Nat) = 2 ^ 16 := by norm_num
  rw [h, Nat.testBit_mod_two_pow, Nat.testBit_ldiff, Nat.testBit_two_pow]

/-- A value below `2 ^ 16` has no bit set at position 16 or above. -/
theorem testBit_eq_false_of_u16 {v j : Nat} (hv : v < 65536) (hj : 16 ≤ j) :
    v.testBit j = false := by
  apply Nat.testBit_lt_two_pow
  calc v < 2 ^ 16 := by simpa using hv
    _ ≤ 2 ^ j := Nat.pow_le_pow_right (by decide) hj

/-- State left by a successful `leds_init`. -/
theorem leds_init_some (s : State) (p : Nat) :
    leds_init s (some p) = (LED_SUCCESS, { led_port := some p, mem := s.mem.write p 0 }) := by
  simp [leds_init, toU16_LED_OFF]

/-- A single bit below 16 fits the register. -/
theorem two_pow_lt_u16 {k : Nat} (hk : k < 16) : 2 ^ k < 65536 := by
  calc 2 ^ k < 2 ^ 16 := Nat.pow_lt_pow_right (by decide) hk
    _ = 65536 := by norm_num

/-! ## Error code of the per-LED functions -/

/-- C11, the header documentation compared with the code: with a null port (LED 3) and with
a bound port and LED number 17, the three per-LED functions return -2, not the -1 that the
comments in `leds.h` announce. -/
theorem C11_header_doc_counterexample :
    (leds_turn_on_single (State.start (fun _ => 0)) 3).1 = -2 ∧
    (leds_turn_on_single (State.start (fun _ => 0)) 3).1 ≠ -1 ∧
    (leds_turn_off_single (State.start (fun _ => 0)) 3).1 ≠ -1 ∧
    (leds_get_status_single (State.start (fun _ => 0)) 3).1 ≠ -1 ∧
    (leds_turn_on_single (boundAt 3 0) 17).1 = -2 ∧
    (leds_turn_on_single (boundAt 3 0) 17).1 ≠ -1 ∧
    (leds_turn_off_single (boundAt 3 0) 17).1 ≠ -1 ∧
    (leds_get_status_single (boundAt 3 0) 17).1 ≠ -1 := by
  decide

/-- C11 as amended: when the port is null or the LED number is outside `1..LED_COUNT`,
`leds_turn_on_single`, `leds_turn_off_single` and `leds_get_status_single` return
`LED_ERROR_INVALID_PARAMS`, that is -2 (as the comments in `leds.c` say), and leave the
state as it was. -/
theorem C11_per_led_errors_return_minus_two (s : State) (i : Nat)
    (h : s.led_port = none ∨ i < 1 ∨ LED_COUNT < i) :
    leds_turn_on_single s i = (LED_ERROR_INVALID_PARAMS, s) ∧
    leds_turn_off_single s i = (LED_ERROR_INVALID_PARAMS, s) ∧
    leds_get_status_single s i = (LED_ERROR_INVALID_PARAMS, s) ∧
    (leds_turn_on_single s i).1 = -2 ∧
    (leds_turn_off_single s i).1 = -2 ∧
    (leds_get_status_single s i).1 = -2 := by
  have key : leds_turn_on_single s i = (LED_ERROR_INVALID_PARAMS, s) ∧
      leds_turn_off_single s i = (LED_ERROR_INVALID_PARAMS, s) ∧
      leds_get_status_single s i = (LED_ERROR_INVALID_PARAMS, s) := by
    rcases h with hn | hr
    · simp [leds_turn_on_single, leds_turn_off_single, leds_get_status_single, hn]
    · have ho : outOfRange i = true := by
        apply outOfRange_eq_true
        unfold LED_COUNT at hr
        omega
      unfold leds_turn_on_single leds_turn_off_single leds_get_status_single
      cases s.led_port <;> simp [ho]
  obtain ⟨h1, h2, h3⟩ := key
  refine ⟨h1, h2, h3, ?_, ?_, ?_⟩
  · rw [h1]; rfl
  · rw [h2]; rfl
  · rw [h3]; rfl

/-- C11 as amended, at a concrete input: register 0 bound at address 3, LED number 17. -/
theorem C11_per_led_errors_return_minus_two_witness :
    ((boundAt 3 0).led_port = none ∨ 17 < 1 ∨ LED_COUNT < 17) ∧
    leds_turn_on_single (boundAt 3 0) 17 = (LED_ERROR_INVALID_PARAMS, boundAt 3 0) ∧
    leds_turn_off_single (boundAt 3 0) 17 = (LED_ERROR_INVALID_PARAMS, boundAt 3 0) ∧
    leds_get_status_single (boundAt 3 0) 17 = (LED_ERROR_INVALID_PARAMS, boundAt 3 0) ∧
    (leds_turn_on_single (boundAt 3 0) 17).1 = -2 ∧
    (leds_turn_off_single (boundAt 3 0) 17).1 = -2 ∧
    (leds_get_status_single (boundAt 3 0) 17).1 = -2 :=
  ⟨Or.inr (Or.inr (by decide)),
    C11_per_led_errors_return_minus_two (boundAt 3 0) 17 (Or.inr (Or.inr (by decide)))⟩

/-! ## Whole-register values against the header constants -/

/-- C12: in every bound state `leds_turn_on_all` returns `LED_SUCCESS`, after which the
bound register and the result of `leds_get_status_all` both equal `LED_ON`; and
`leds_turn_off_all` returns `LED_SUCCESS`, after which both equal `LED_OFF`. -/
theorem C12_all_on_off_match_constants (s : State) (p : Nat) (hb : s.led_port = some p) :
    (leds_turn_on_all s).1 = LED_SUCCESS ∧
    (((leds_turn_on_all s).2.mem p : Nat) : Int) = LED_ON ∧
    (leds_get_status_all (leds_turn_on_all s).2).1 = LED_ON ∧
    (leds_turn_off_all s).1 = LED_SUCCESS ∧
    (((leds_turn_off_all s).2.mem p : Nat) : Int) = LED_OFF ∧
    (leds_get_status_all (leds_turn_off_all s).2).1 = LED_OFF := by
  have hon : leds_turn_on_all s = (LED_SUCCESS, { s with mem := s.mem.write p 255 }) := by
    simp [leds_turn_on_all, hb, toU16_LED_ON]
  have hoff : leds_turn_off_all s = (LED_SUCCESS, { s with mem := s.mem.write p 0 }) := by
    simp [leds_turn_off_all, hb, toU16_LED_OFF]
  rw [hon, hoff]
  refine ⟨rfl, ?_, ?_, rfl, ?_, ?_⟩
  · simp [Mem.write_same, LED_ON]
  · simp [leds_get_status_all, hb, Mem.write_same, LED_ON]
  · simp [Mem.write_same, LED_OFF]
  · simp [leds_get_status_all, hb, Mem.write_same, LED_OFF]

/-- C12 at a concrete input: register `0x1234` bound at address 3. -/
theorem C12_all_on_off_match_constants_witness :
    (boundAt 3 0x1234).led_port = some 3 ∧
    (leds_turn_on_all (boundAt 3 0x1234)).1 = LED_SUCCESS ∧
    (((leds_turn_on_all (boundAt 3 0x1234)).2.mem 3 : Nat) : Int) = LED_ON ∧
    (leds_get_status_all (leds_turn_on_all (boundAt 3 0x1234)).2).1 = LED_ON ∧
    (leds_turn_off_all (boundAt 3 0x1234)).1 = LED_SUCCESS ∧
    (((leds_turn_off_all (boundAt 3 0x1234)).2.mem 3 : Nat) : Int) = LED_OFF ∧
    (leds_get_status_all (leds_turn_off_all (boundAt 3 0x1234)).2).1 = LED_OFF :=
  ⟨rfl, C12_all_on_off_match_constants (boundAt 3 0x1234) 3 rfl⟩

/-! ## Writes starting from the all-off register -/

/-- C13: on the all-off register left by `leds_init`, for every `i` in `[1, 16]`,
`leds_turn_on_single i` returns `LED_SUCCESS` and leaves the register equal to
`2 ^ (i - 1)`: bit `i - 1` is high and every other bit is low.  In particular LED 1 gives
`0x0001` and LED 16 gives `0x8000`. -/
theorem C13_single_on_from_all_off (s : State) (p i : Nat) (h1 : 1 ≤ i) (h16 : i ≤ 16) :
    (leds_turn_on_single (leds_init s (some p)).2 i).1 = LED_SUCCESS ∧
    (leds_turn_on_single (leds_init s (some p)).2 i).2.mem p = 2 ^ (i - 1) ∧
    (∀ k, ((leds_turn_on_single (leds_init s (some p)).2 i).2.mem p).testBit k
      = decide (k = i - 1)) ∧
    (leds_turn_on_single (leds_init s (some p)).2 1).2.mem p = 0x0001 ∧
    (leds_turn_on_single (leds_init s (some p)).2 16).2.mem p = 0x8000 := by
  have hv : ∀ n, 1 ≤ n → n ≤ 16 →
      (leds_turn_on_single (leds_init s (some p)).2 n).2.mem p = 2 ^ (n - 1) := by
    intro n hn1 hn16
    have hk : n - 1 < 16 := by omega
    rw [leds_init_some, leds_turn_on_single_mk p _ hn1 hn16]
    simp only [Mem.write_same, Nat.zero_or]
    exact Nat.mod_eq_of_lt (two_pow_lt_u16 hk)
  refine ⟨?_, hv i h1 h16, ?_, ?_, ?_⟩
  · rw [leds_init_some, leds_turn_on_single_mk p _ h1 h16]
  · intro k
    rw [hv i h1 h16, Nat.testBit_two_pow]
    by_cases hki : k = i - 1
    · simp [hki]
    · have : i - 1 ≠ k := fun h => hki h.symm
      simp [hki, this]
  · rw [hv 1 (by decide) (by decide)]
    rfl
  · rw [hv 16 (by decide) (by decide)]
    rfl

/-- C13 at a concrete input: a register holding `0xFFFF` before `leds_init`, LED 16. -/
theorem C13_single_on_from_all_off_witness :
    (1 ≤ 16 ∧ 16 ≤ 16) ∧
    (leds_turn_on_single (leds_init (boundAt 3 0xFFFF) (some 3)).2 16).1 = LED_SUCCESS ∧
    (leds_turn_on_single (leds_init (boundAt 3 0xFFFF) (some 3)).2 16).2.mem 3 = 2 ^ (16 - 1) ∧
    (∀ k, ((leds_turn_on_single (leds_init (boundAt 3 0xFFFF) (some 3)).2 16).2.mem 3).testBit k
      = decide (k = 16 - 1)) ∧
    (leds_turn_on_single (leds_init (boundAt 3 0xFFFF) (some 3)).2 1).2.mem 3 = 0x0001 ∧
    (leds_turn_on_single (leds_init (boundAt 3 0xFFFF) (some 3)).2 16).2.mem 3 = 0x8000 :=
  ⟨⟨by decide, by decide⟩,
    C13_single_on_from_all_off (boundAt 3 0xFFFF) 3 16 (by decide) (by decide)⟩

/-- C14: on the all-off register left by `leds_init`, for pairwise distinct `a`, `b`, `c`
in `[1, 16]`, the calls `leds_turn_on_single a`, `leds_turn_on_single b`,
`leds_turn_on_single c`, `leds_turn_off_single a`, `leds_turn_off_single c` all return
`LED_SUCCESS` and leave the register equal to `2 ^ (b - 1)`: only LED `b` is on. -/
theorem C14_on_on_on_off_off (s : State) (p a b c : Nat)
    (ha1 : 1 ≤ a) (ha16 : a ≤ 16) (hb1 : 1 ≤ b) (hb16 : b ≤ 16) (hc1 : 1 ≤ c) (hc16 : c ≤ 16)
    (hab : a ≠ b) (hac : a ≠ c) (hbc : b ≠ c) :
    ∃ s1 s2 s3 s4 s5 : State,
      leds_turn_on_single (leds_init s (some p)).2 a = (LED_SUCCESS, s1) ∧
      leds_turn_on_single s1 b = (LED_SUCCESS, s2) ∧
      leds_turn_on_single s2 c = (LED_SUCCESS, s3) ∧
      leds_turn_off_single s3 a = (LED_SUCCESS, s4) ∧
      leds_turn_off_single s4 c = (LED_SUCCESS, s5) ∧
      s5.mem p = 2 ^ (b - 1) := by
  rw [leds_init_some]
  refine ⟨_, _, _, _, _, leds_turn_on_single_mk p _ ha1 ha16, leds_turn_on_single_mk p _ hb1 hb16,
    leds_turn_on_single_mk p _ hc1 hc16, leds_turn_off_single_mk p _ ha1 ha16,
    leds_turn_off_single_mk p _ hc1 hc16, ?_⟩
  simp only [Mem.write_same]
  apply Nat.eq_of_testBit_eq
  intro j
  simp only [testBit_offValue, testBit_onValue, Nat.testBit_two_pow, Nat.zero_testBit,
    Bool.false_or]
  by_cases hjb : b - 1 = j
  · have hja : ¬ (a - 1 = j) := by omega
    have hjc : ¬ (c - 1 = j) := by omega
    have hj : j < 16 := by omega
    simp [hjb, hja, hjc, hj]
  · by_cases hja : a - 1 = j <;> by_cases hjc : c - 1 = j <;> simp [hjb, hja, hjc]

/-- C14 at the input of the test suite: LEDs 1, 3 and 5 leave the register at `0x0004`. -/
theorem C14_on_on_on_off_off_witness :
    ((1 : Nat) ≠ 3 ∧ (1 : Nat) ≠ 5 ∧ (3 : Nat) ≠ 5) ∧
    (∃ s1 s2 s3 s4 s5 : State,
      leds_turn_on_single (leds_init (boundAt 7 0xFF) (some 7)).2 1 = (LED_SUCCESS, s1) ∧
      leds_turn_on_single s1 3 = (LED_SUCCESS, s2) ∧
      leds_turn_on_single s2 5 = (LED_SUCCESS, s3) ∧
      leds_turn_off_single s3 1 = (LED_SUCCESS, s4) ∧
      leds_turn_off_single s4 5 = (LED_SUCCESS, s5) ∧
      s5.mem 7 = 2 ^ (3 - 1)) ∧
    (2 : Nat) ^ (3 - 1) = 0x0004 :=
  ⟨⟨by decide, by decide, by decide⟩,
    C14_on_on_on_off_off (boundAt 7 0xFF) 7 1 3 5 (by decide) (by decide) (by decide)
      (by decide) (by decide) (by decide) (by decide) (by decide) (by decide),
    by decide⟩

/-! ## Rebinding -/

/-- A call writes no cell other than the bound register. -/
theorem Call.run_mem_other (s : State) (c : Call) {a : Nat} (h : s.led_port ≠ some a) :
    (Call.run s c).mem a = s.mem a := by
  cases hp : s.led_port with
  | none =>
    cases c <;>
      simp [Call.run, leds_turn_on_single, leds_turn_off_single, leds_get_status_single,
        leds_turn_on_all, leds_turn_off_all, leds_get_status_all, leds_deinit, hp]
  | some q =>
    have hq : a ≠ q := by
      intro e
      apply h
      rw [hp, e]
    cases c with
    | turn_on_single led =>
      simp only [Call.run, leds_turn_on_single, hp]
      split
      · rfl
      · exact Mem.write_other _ _ _ hq
    | turn_off_single led =>
      simp only [Call.run, leds_turn_off_single, hp]
      split
      · rfl
      · exact Mem.write_other _ _ _ hq
    | get_status_single led =>
      simp only [Call.run, leds_get_status_single, hp]
      split <;> rfl
    | turn_on_all =>
      simp only [Call.run, leds_turn_on_all, hp]
      exact Mem.write_other _ _ _ hq
    | turn_off_all =>
      simp only [Call.run, leds_turn_off_all, hp]
      exact Mem.write_other _ _ _ hq
    | get_status_all =>
      simp only [Call.run, leds_get_status_all, hp]
    | deinit =>
      simp only [Call.run, leds_deinit, hp]
      exact Mem.write_other _ _ _ hq

/-- A call keeps the binding or, for `leds_deinit`, drops it; it never binds a register. -/
theorem Call.run_led_port (s : State) (c : Call) :
    (Call.run s c).led_port = s.led_port ∨ (Call.run s c).led_port = none := by
  cases hp : s.led_port with
  | none =>
    cases c <;>
      simp [Call.run, leds_turn_on_single, leds_turn_off_single, leds_get_status_single,
        leds_turn_on_all, leds_turn_off_all, leds_get_status_all, leds_deinit, hp]
  | some q =>
    cases c with
    | turn_on_single led =>
      simp only [Call.run, leds_turn_on_single, hp]
      split <;> simp [hp]
    | turn_off_single led =>
      simp only [Call.run, leds_turn_off_single, hp]
      split <;> simp [hp]
    | get_status_single led =>
      simp only [Call.run, leds_get_status_single, hp]
      split <;> simp [hp]
    | turn_on_all => simp [Call.run, leds_turn_on_all, hp]
    | turn_off_all => simp [Call.run, leds_turn_off_all, hp]
    | get_status_all => simp [Call.run, leds_get_status_all, hp]
    | deinit => simp [Call.run, leds_deinit, hp]

/-- A sequence of calls started with the port null or bound to `r` writes no cell other
than `r`. -/
theorem runCalls_mem_other (cs : List Call) (s : State) {r a : Nat}
    (hs : s.led_port = some r ∨ s.led_port = none) (ha : a ≠ r) :
    (runCalls s cs).mem a = s.mem a := by
  induction cs generalizing s with
  | nil => rfl
  | cons c cs ih =>
    have hport : s.led_port ≠ some a := by
      rcases hs with h | h
      · rw [h]
        intro e
        exact ha (Option.some.inj e).symm
      · rw [h]
        exact fun e => Option.noConfusion e
    have hnext : (Call.run s c).led_port = some r ∨ (Call.run s c).led_port = none := by
      rcases Call.run_led_port s c with h | h
      · rw [h]
        exact hs
      · exact Or.inr h
    show (runCalls (Call.run s c) cs).mem a = s.mem a
    rw [ih (Call.run s c) hnext, Call.run_mem_other s c hport]

/-- C15: when `leds_init` is called with a non-null register `r2` different from `r1` (in
particular while the controller is bound to `r1`), it returns `LED_SUCCESS`, binds `r2`,
leaves `r2` at `0x0000` and `r1` at the value it had just before the call; and after any
later sequence of calls of the other functions (`leds_turn_on_single`,
`leds_turn_off_single`, `leds_turn_on_all`, `leds_turn_off_all`, `leds_deinit` and the two
queries) `r1`, like every cell other than `r2`, still holds that value. -/
theorem C15_rebind_leaves_old_register (s : State) (r1 r2 : Nat) (hne : r2 ≠ r1) :
    (leds_init s (some r2)).1 = LED_SUCCESS ∧
    (leds_init s (some r2)).2.led_port = some r2 ∧
    (leds_init s (some r2)).2.mem r2 = 0x0000 ∧
    (leds_init s (some r2)).2.mem r1 = s.mem r1 ∧
    (∀ cs : List Call, (runCalls (leds_init s (some r2)).2 cs).mem r1 = s.mem r1) ∧
    (∀ (cs : List Call) (a : Nat), a ≠ r2 →
      (runCalls (leds_init s (some r2)).2 cs).mem a = s.mem a) := by
  have hframe : ∀ (cs : List Call) (a : Nat), a ≠ r2 →
      (runCalls (leds_init s (some r2)).2 cs).mem a = s.mem a := by
    intro cs a ha
    rw [leds_init_some]
    rw [runCalls_mem_other cs _ (Or.inl rfl) ha]
    exact Mem.write_other _ _ _ ha
  rw [leds_init_some] at hframe ⊢
  refine ⟨rfl, rfl, Mem.write_same _ _ _, Mem.write_other _ _ _ hne.symm, ?_, hframe⟩
  intro cs
  exact hframe cs r1 hne.symm

/-- C15 at a concrete input: the controller is bound to address 1 holding `0xBEEF`, and is
then bound to address 2. -/
theorem C15_rebind_leaves_old_register_witness :
    (boundAt 1 0xBEEF).led_port = some 1 ∧ (2 : Nat) ≠ 1 ∧
    (leds_init (boundAt 1 0xBEEF) (some 2)).1 = LED_SUCCESS ∧
    (leds_init (boundAt 1 0xBEEF) (some 2)).2.led_port = some 2 ∧
    (leds_init (boundAt 1 0xBEEF) (some 2)).2.mem 2 = 0x0000 ∧
    (leds_init (boundAt 1 0xBEEF) (some 2)).2.mem 1 = (boundAt 1 0xBEEF).mem 1 ∧
    (∀ cs : List Call,
      (runCalls (leds_init (boundAt 1 0xBEEF) (some 2)).2 cs).mem 1 = (boundAt 1 0xBEEF).mem 1) ∧
    (∀ (cs : List Call) (a : Nat), a ≠ 2 →
      (runCalls (leds_init (boundAt 1 0xBEEF) (some 2)).2 cs).mem a
        = (boundAt 1 0xBEEF).mem a) :=
  ⟨rfl, by decide, C15_rebind_leaves_old_register (boundAt 1 0xBEEF) 1 2 (by decide)⟩

/-! ## Return values of the queries -/

theorem boundAt_wellFormed {p v : Nat} (hv : v < 65536) : (boundAt p v).WellFormed := by
  intro a
  show Mem.write (fun _ => 0) p v a < 65536
  unfold Mem.write
  split
  · exact hv
  · exact Nat.zero_lt_succ _

/-- C16: in a bound state whose cells hold `uint16_t` values, `leds_get_status_all` returns
an `int` between 0 and 65535, so never `LED_ERROR_NULL_PORT`, and for `i` in `[1, 16]`
`leds_get_status_single i` returns 0 or 1, so never `LED_ERROR_INVALID_PARAMS`.  In every
state, `leds_get_status_all` returns a negative value exactly when the port is null, and
`leds_get_status_single j` exactly when the port is null or `j` is outside
`1..LED_COUNT`. -/
theorem C16_error_codes_do_not_alias (s : State) (p i : Nat) (hb : s.led_port = some p)
    (hwf : s.WellFormed) (h1 : 1 ≤ i) (h16 : i ≤ 16) :
    0 ≤ (leds_get_status_all s).1 ∧
    (leds_get_status_all s).1 ≤ 65535 ∧
    (leds_get_status_all s).1 ≠ LED_ERROR_NULL_PORT ∧
    ((leds_get_status_single s i).1 = 0 ∨ (leds_get_status_single s i).1 = 1) ∧
    (leds_get_status_single s i).1 ≠ LED_ERROR_INVALID_PARAMS ∧
    (∀ t : State, (leds_get_status_all t).1 < 0 ↔ t.led_port = none) ∧
    (∀ (t : State) (j : Nat),
      (leds_get_status_single t j).1 < 0 ↔ (t.led_port = none ∨ j < 1 ∨ LED_COUNT < j)) := by
  have hv : s.mem p < 65536 := hwf p
  have hall : (leds_get_status_all s).1 = (s.mem p : Int) := by
    simp [leds_get_status_all, hb]
  have hone : (leds_get_status_single s i).1 = if (s.mem p).testBit (i - 1) then 1 else 0 := by
    rw [leds_get_status_single_bound hb h1 h16]
  refine ⟨?_, ?_, ?_, ?_, ?_, ?_, ?_⟩
  · rw [hall]; omega
  · rw [hall]; omega
  · rw [hall]; unfold LED_ERROR_NULL_PORT; omega
  · rw [hone]
    cases (s.mem p).testBit (i - 1) <;> simp
  · rw [hone]
    unfold LED_ERROR_INVALID_PARAMS
    cases (s.mem p).testBit (i - 1) <;> simp
  · intro t
    unfold leds_get_status_all
    cases ht : t.led_port with
    | none => simp [LED_ERROR_NULL_PORT]
    | some q =>
      simp only [reduceCtorEq, iff_false, not_lt]
      omega
  · intro t j
    cases ht : t.led_port with
    | none => simp [leds_get_status_single, ht, LED_ERROR_INVALID_PARAMS]
    | some q =>
      by_cases hj : 1 ≤ j ∧ j ≤ 16
      · rw [leds_get_status_single_bound ht hj.1 hj.2]
        have hno : ¬ (j < 1 ∨ LED_COUNT < j) := by
          unfold LED_COUNT
          omega
        have hrhs : ¬ (some q = none ∨ j < 1 ∨ LED_COUNT < j) := by
          rintro (h | h)
          · exact Option.noConfusion h
          · exact hno h
        refine iff_of_false ?_ hrhs
        cases (t.mem q).testBit (j - 1) <;> simp
      · have ho : outOfRange j = true := outOfRange_eq_true (by omega)
        have hyes : j < 1 ∨ LED_COUNT < j := by
          unfold LED_COUNT
          omega
        refine iff_of_true ?_ (Or.inr hyes)
        simp [leds_get_status_single, ht, ho, LED_ERROR_INVALID_PARAMS]

/-- C16 at a concrete input: register `0xFFFF` bound at address 3, LED 16. -/
theorem C16_error_codes_do_not_alias_witness :
    ((boundAt 3 0xFFFF).led_port = some 3 ∧ (boundAt 3 0xFFFF).WellFormed) ∧
    0 ≤ (leds_get_status_all (boundAt 3 0xFFFF)).1 ∧
    (leds_get_status_all (boundAt 3 0xFFFF)).1 ≤ 65535 ∧
    (leds_get_status_all (boundAt 3 0xFFFF)).1 ≠ LED_ERROR_NULL_PORT ∧
    ((leds_get_status_single (boundAt 3 0xFFFF) 16).1 = 0 ∨
      (leds_get_status_single (boundAt 3 0xFFFF) 16).1 = 1) ∧
    (leds_get_status_single (boundAt 3 0xFFFF) 16).1 ≠ LED_ERROR_INVALID_PARAMS ∧
    (∀ t : State, (leds_get_status_all t).1 < 0 ↔ t.led_port = none) ∧
    (∀ (t : State) (j : Nat),
      (leds_get_status_single t j).1 < 0 ↔ (t.led_port = none ∨ j < 1 ∨ LED_COUNT < j)) :=
  ⟨⟨rfl, boundAt_wellFormed (by decide)⟩,
    C16_error_codes_do_not_alias (boundAt 3 0xFFFF) 3 16 rfl (boundAt_wellFormed (by decide))
      (by decide) (by decide)⟩

/-! ## Algebra of the stored values -/

theorem onValue_comm (v a b : Nat) :
    ((v ||| 2 ^ a) % 65536 ||| 2 ^ b) % 65536 = ((v ||| 2 ^ b) % 65536 ||| 2 ^ a) % 65536 := by
  apply Nat.eq_of_testBit_eq
  intro k
  simp only [testBit_onValue]
  by_cases ha : a = k <;> by_cases hb : b = k <;> by_cases hk : k < 16 <;>
    cases v.testBit k <;> simp [ha, hb, hk]

theorem offValue_comm (v a b : Nat) :
    (Nat.ldiff ((Nat.ldiff v (2 ^ a)) % 65536) (2 ^ b)) % 65536 =
      (Nat.ldiff ((Nat.ldiff v (2 ^ b)) % 65536) (2 ^ a)) % 65536 := by
  apply Nat.eq_of_testBit_eq
  intro k
  simp only [testBit_offValue]
  by_cases ha : a = k <;> by_cases hb : b = k <;> by_cases hk : k < 16 <;>
    cases v.testBit k <;> simp [ha, hb, hk]

theorem onValue_offValue_comm (v : Nat) {a b : Nat} (hab : a ≠ b) :
    (Nat.ldiff ((v ||| 2 ^ a) % 65536) (2 ^ b)) % 65536 =
      ((Nat.ldiff v (2 ^ b)) % 65536 ||| 2 ^ a) % 65536 := by
  apply Nat.eq_of_testBit_eq
  intro k
  simp only [testBit_offValue, testBit_onValue]
  by_cases ha : a = k
  · have hb : ¬ b = k := fun h => hab (ha.trans h.symm)
    by_cases hk : k < 16 <;> cases v.testBit k <;> simp [ha, hb, hk]
  · by_cases hb : b = k <;> by_cases hk : k < 16 <;> cases v.testBit k <;> simp [ha, hb, hk]

theorem onValue_idem (v a : Nat) :
    ((v ||| 2 ^ a) % 65536 ||| 2 ^ a) % 65536 = (v ||| 2 ^ a) % 65536 := by
  apply Nat.eq_of_testBit_eq
  intro k
  simp only [testBit_onValue]
  by_cases ha : a = k <;> by_cases hk : k < 16 <;> cases v.testBit k <;> simp [ha, hk]

theorem offValue_idem (v a : Nat) :
    (Nat.ldiff ((Nat.ldiff v (2 ^ a)) % 65536) (2 ^ a)) % 65536 = (Nat.ldiff v (2 ^ a)) % 65536 := by
  apply Nat.eq_of_testBit_eq
  intro k
  simp only [testBit_offValue]
  by_cases ha : a = k <;> by_cases hk : k < 16 <;> cases v.testBit k <;> simp [ha, hk]

theorem offValue_onValue_undo {v a : Nat} (hv : v < 65536) (hbit : v.testBit a = false) :
    (Nat.ldiff ((v ||| 2 ^ a) % 65536) (2 ^ a)) % 65536 = v := by
  apply Nat.eq_of_testBit_eq
  intro k
  simp only [testBit_offValue, testBit_onValue]
  by_cases hk : k < 16
  · by_cases ha : a = k
    · subst ha; simp [hk, hbit]
    · simp [hk, ha]
  · rw [testBit_eq_false_of_u16 hv (by omega)]
    simp [hk]

theorem onValue_offValue_undo {v a : Nat} (hv : v < 65536) (hbit : v.testBit a = true) :
    ((Nat.ldiff v (2 ^ a)) % 65536 ||| 2 ^ a) % 65536 = v := by
  apply Nat.eq_of_testBit_eq
  intro k
  simp only [testBit_offValue, testBit_onValue]
  by_cases hk : k < 16
  · by_cases ha : a = k
    · subst ha; simp [hk, hbit]
    · simp [hk, ha]
  · rw [testBit_eq_false_of_u16 hv (by omega)]
    simp [hk]

/-! ## Commutation, idempotence and undo of single-LED writes -/

/-- C17: in every bound state and for all `i`, `j` in `[1, 16]`, switching LED `i` then LED
`j` on leaves the same state (hence the same register) as switching `j` then `i` on;
likewise for switching both off; and, when `i ≠ j`, switching `i` on then `j` off leaves
the same state as switching `j` off then `i` on. -/
theorem C17_single_writes_commute (s : State) (p i j : Nat) (hb : s.led_port = some p)
    (hi1 : 1 ≤ i) (hi16 : i ≤ 16) (hj1 : 1 ≤ j) (hj16 : j ≤ 16) :
    (leds_turn_on_single (leds_turn_on_single s i).2 j).2
      = (leds_turn_on_single (leds_turn_on_single s j).2 i).2 ∧
    (leds_turn_off_single (leds_turn_off_single s i).2 j).2
      = (leds_turn_off_single (leds_turn_off_single s j).2 i).2 ∧
    (i ≠ j →
      (leds_turn_off_single (leds_turn_on_single s i).2 j).2
        = (leds_turn_on_single (leds_turn_off_single s j).2 i).2) := by
  obtain ⟨q, m⟩ := s
  have hq : q = some p := hb
  subst hq
  have on_i := fun m => leds_turn_on_single_mk p m hi1 hi16
  have on_j := fun m => leds_turn_on_single_mk p m hj1 hj16
  have off_i := fun m => leds_turn_off_single_mk p m hi1 hi16
  have off_j := fun m => leds_turn_off_single_mk p m hj1 hj16
  refine ⟨?_, ?_, ?_⟩
  · simp only [on_i, on_j, Mem.write_same, Mem.write_write]
    rw [onValue_comm]
  · simp only [off_i, off_j, Mem.write_same, Mem.write_write]
    rw [offValue_comm]
  · intro hij
    have hne : i - 1 ≠ j - 1 := by omega
    simp only [on_i, off_j, Mem.write_same, Mem.write_write]
    rw [onValue_offValue_comm _ hne]

/-- C17 at a concrete input: register `0x0F0F` bound at address 3, LEDs 2 and 16. -/
theorem C17_single_writes_commute_witness :
    (boundAt 3 0x0F0F).led_port = some 3 ∧
    (leds_turn_on_single (leds_turn_on_single (boundAt 3 0x0F0F) 2).2 16).2
      = (leds_turn_on_single (leds_turn_on_single (boundAt 3 0x0F0F) 16).2 2).2 ∧
    (leds_turn_off_single (leds_turn_off_single (boundAt 3 0x0F0F) 2).2 16).2
      = (leds_turn_off_single (leds_turn_off_single (boundAt 3 0x0F0F) 16).2 2).2 ∧
    (2 ≠ 16 →
      (leds_turn_off_single (leds_turn_on_single (boundAt 3 0x0F0F) 2).2 16).2
        = (leds_turn_on_single (leds_turn_off_single (boundAt 3 0x0F0F) 16).2 2).2) :=
  ⟨rfl, C17_single_writes_commute (boundAt 3 0x0F0F) 3 2 16 rfl (by decide) (by decide)
    (by decide) (by decide)⟩

/-- C18: in every bound state whose cells hold `uint16_t` values and for every `i` in
`[1, 16]`, switching LED `i` on twice leaves the same state as switching it on once,
switching it off twice the same as switching it off once; switching it on and then off
restores the state (hence the register) when `leds_get_status_single i` reported it off
before, and switching it off and then on restores the state when it was reported on. -/
theorem C18_idempotence_and_undo (s : State) (p i : Nat) (hb : s.led_port = some p)
    (hwf : s.WellFormed) (h1 : 1 ≤ i) (h16 : i ≤ 16) :
    (leds_turn_on_single (leds_turn_on_single s i).2 i).2 = (leds_turn_on_single s i).2 ∧
    (leds_turn_off_single (leds_turn_off_single s i).2 i).2 = (leds_turn_off_single s i).2 ∧
    ((leds_get_status_single s i).1 = 0 →
      (leds_turn_off_single (leds_turn_on_single s i).2 i).2 = s) ∧
    ((leds_get_status_single s i).1 = 1 →
      (leds_turn_on_single (leds_turn_off_single s i).2 i).2 = s) := by
  have hv : s.mem p < 65536 := hwf p
  have hget := leds_get_status_single_bound hb h1 h16
  obtain ⟨q, m⟩ := s
  have hq : q = some p := hb
  subst hq
  have on_i := fun m => leds_turn_on_single_mk p m h1 h16
  have off_i := fun m => leds_turn_off_single_mk p m h1 h16
  refine ⟨?_, ?_, ?_, ?_⟩
  · simp only [on_i, Mem.write_same, Mem.write_write]
    rw [onValue_idem]
  · simp only [off_i, Mem.write_same, Mem.write_write]
    rw [offValue_idem]
  · intro h0
    have hbit : (m p).testBit (i - 1) = false := by
      rw [hget] at h0
      cases hc : (m p).testBit (i - 1)
      · rfl
      · simp [hc] at h0
    simp only [on_i, off_i, Mem.write_same, Mem.write_write]
    rw [offValue_onValue_undo hv hbit, Mem.write_self]
  · intro h0
    have hbit : (m p).testBit (i - 1) = true := by
      rw [hget] at h0
      cases hc : (m p).testBit (i - 1)
      · simp [hc] at h0
      · rfl
    simp only [on_i, off_i, Mem.write_same, Mem.write_write]
    rw [onValue_offValue_undo hv hbit, Mem.write_self]

/-- C18 at a concrete input: register `0x8001` bound at address 3, LED 16 (which is on). -/
theorem C18_idempotence_and_undo_witness :
    ((boundAt 3 0x8001).led_port = some 3 ∧ (boundAt 3 0x8001).WellFormed) ∧
    (leds_turn_on_single (leds_turn_on_single (boundAt 3 0x8001) 16).2 16).2
      = (leds_turn_on_single (boundAt 3 0x8001) 16).2 ∧
    (leds_turn_off_single (leds_turn_off_single (boundAt 3 0x8001) 16).2 16).2
      = (leds_turn_off_single (boundAt 3 0x8001) 16).2 ∧
    ((leds_get_status_single (boundAt 3 0x8001) 16).1 = 0 →
      (leds_turn_off_single (leds_turn_on_single (boundAt 3 0x8001) 16).2 16).2
        = boundAt 3 0x8001) ∧
    ((leds_get_status_single (boundAt 3 0x8001) 16).1 = 1 →
      (leds_turn_on_single (leds_turn_off_single (boundAt 3 0x8001) 16).2 16).2
        = boundAt 3 0x8001) :=
  ⟨⟨rfl, boundAt_wellFormed (by decide)⟩,
    C18_idempotence_and_undo (boundAt 3 0x8001) 3 16 rfl (boundAt_wellFormed (by decide))
      (by decide) (by decide)⟩

/-! ## The cells keep `uint16_t` values -/

theorem toU16_lt (x : Int) : toU16 x < 65536 := by
  unfold toU16
  omega

theorem Mem.write_lt {m : Mem} (hm : ∀ a, m a < 65536) (p : Nat) {v : Nat} (hv : v < 65536) :
    ∀ a, m.write p v a < 65536 := by
  intro a
  unfold Mem.write
  split
  · exact hv
  · exact hm a

/-- Binding a register keeps every cell within `uint16_t`. -/
theorem leds_init_wellFormed (s : State) (port : Option Nat) (hwf : s.WellFormed) :
    (leds_init s port).2.WellFormed := by
  cases port with
  | none => exact hwf
  | some p => exact Mem.write_lt hwf p (toU16_lt _)

/-- Every other call keeps every cell within `uint16_t`. -/
theorem Call.run_wellFormed (s : State) (c : Call) (hwf : s.WellFormed) :
    (Call.run s c).WellFormed := by
  cases hp : s.led_port with
  | none =>
    cases c <;>
      simpa [Call.run, leds_turn_on_single, leds_turn_off_single, leds_get_status_single,
        leds_turn_on_all, leds_turn_off_all, leds_get_status_all, leds_deinit, hp] using hwf
  | some q =>
    cases c with
    | turn_on_single led =>
      simp only [Call.run, leds_turn_on_single, hp]
      split
      · exact hwf
      · exact Mem.write_lt hwf q (toU16_lt _)
    | turn_off_single led =>
      simp only [Call.run, leds_turn_off_single, hp]
      split
      · exact hwf
      · exact Mem.write_lt hwf q (toU16_lt _)
    | get_status_single led =>
      simp only [Call.run, leds_get_status_single, hp]
      split <;> exact hwf
    | turn_on_all =>
      simp only [Call.run, leds_turn_on_all, hp]
      exact Mem.write_lt hwf q (toU16_lt _)
    | turn_off_all =>
      simp only [Call.run, leds_turn_off_all, hp]
      exact Mem.write_lt hwf q (toU16_lt _)
    | get_status_all =>
      simp only [Call.run, leds_get_status_all, hp]
      exact hwf
    | deinit =>
      simp only [Call.run, leds_deinit, hp]
      exact Mem.write_lt hwf q (toU16_lt _)

end Leds
